import Mathlib

/-!
Verification development for the h2simple I/O core (src/h2sim/h2_io.c).

The definitions below are a shallow embedding of the C code: byte strings are
modelled as `List Nat`, C buffers as lists with explicit index arithmetic,
machine integers as `Nat`/`Int` (overflow never matters for the properties
proved here; where C behavior is undefined, a comment says so), and external
collaborators (the nghttp2 codec, the socket/TLS layer, user callbacks) as
explicit oracle parameters.  Functions keep the names of the C functions they
embed.  Helpers that live in repository files outside src/ (h2_msg.c,
h2_sess.c, h2_priv.h) are modelled from the spec and carry a doc comment
saying so.
-/

set_option linter.unusedVariables false

/-! ## Byte-level helpers (ASCII, C library functions) -/

/-- Space or horizontal tab, the two bytes the parser treats as line-internal
whitespace (C literal tests on a space or a tab character). -/
def isSpTab (c : Nat) : Bool := c == 32 || c == 9

/-- C `isspace` in the C locale: space, \t, \n, \v, \f, \r. -/
def isSpaceC (c : Nat) : Bool := c == 32 || (9 ≤ c && c ≤ 13)

/-- ASCII decimal digit. -/
def isDigitC (c : Nat) : Bool := 48 ≤ c && c ≤ 57

/-- C `tolower` restricted to ASCII, as used by `strncasecmp`. -/
def toLowerB (c : Nat) : Nat := if 65 ≤ c ∧ c ≤ 90 then c + 32 else c

/-- Digit-accumulation loop of C `atoi`: read leading decimal digits. -/
def atoiDigits : List Nat → Int → Int
  | [], acc => acc
  | c :: t, acc => if isDigitC c then atoiDigits t (acc * 10 + ((c : Int) - 48)) else acc

/-- C `atoi`: skip leading whitespace, then an optional sign, then leading
decimal digits.  Modelled on mathematical integers (C int overflow is
undefined behavior and does not occur in the cases the theorems exercise). -/
def atoiC (l : List Nat) : Int :=
  match l.dropWhile isSpaceC with
  | 43 :: t => atoiDigits t 0
  | 45 :: t => - atoiDigits t 0
  | t => atoiDigits t 0

/-- The byte string HTTP/1.1. -/
def HTTP11bytes : List Nat := [72, 84, 84, 80, 47, 49, 46, 49]

/-- The byte string http. -/
def httpBytes : List Nat := [104, 116, 116, 112]

/-- The byte string https. -/
def httpsBytes : List Nat := [104, 116, 116, 112, 115]

/-- The byte string host (lowercase). -/
def hostLower : List Nat := [104, 111, 115, 116]

/-- The byte string content-length (lowercase). -/
def contentLengthLower : List Nat :=
  [99, 111, 110, 116, 101, 110, 116, 45, 108, 101, 110, 103, 116, 104]

/-! ## Message model

The message type and its construction helpers live in h2_msg.c, which is not
part of src/; they are modelled from the spec (section 3, Message: pseudo
headers method, scheme, authority, path, status, an ordered header list, and a
body byte string). -/

structure h2_msg where
  method : List Nat := []
  scheme : List Nat := []
  authority : List Nat := []
  path : List Nat := []
  status : Nat := 0
  headers : List (List Nat × List Nat) := []
  body : List Nat := []
deriving DecidableEq

/-- Modelled from the spec: h2_set_method_n (h2_msg.c, not in src/) stores the
method pseudo-header. -/
def h2_set_method_n (m : h2_msg) (v : List Nat) : h2_msg := { m with method := v }

/-- Modelled from the spec: h2_set_scheme (h2_msg.c, not in src/) stores the
scheme pseudo-header. -/
def h2_set_scheme (m : h2_msg) (v : List Nat) : h2_msg := { m with scheme := v }

/-- Modelled from the spec: h2_set_authority (h2_msg.c, not in src/) stores the
authority pseudo-header. -/
def h2_set_authority (m : h2_msg) (v : List Nat) : h2_msg := { m with authority := v }

/-- Modelled from the spec: h2_set_authority_n (h2_msg.c, not in src/) stores
the authority pseudo-header from a counted byte range. -/
def h2_set_authority_n (m : h2_msg) (v : List Nat) : h2_msg := { m with authority := v }

/-- Modelled from the spec: h2_set_path_n (h2_msg.c, not in src/) stores the
path pseudo-header from a counted byte range. -/
def h2_set_path_n (m : h2_msg) (v : List Nat) : h2_msg := { m with path := v }

/-- Modelled from the spec: h2_set_status (h2_msg.c, not in src/) stores the
status pseudo-header. -/
def h2_set_status (m : h2_msg) (v : Nat) : h2_msg := { m with status := v }

/-- Modelled from the spec: h2_add_hdr_n (h2_msg.c, not in src/) appends one
(name, value) pair to the ordered header list. -/
def h2_add_hdr_n (m : h2_msg) (n v : List Nat) : h2_msg :=
  { m with headers := m.headers ++ [(n, v)] }

/-- Modelled from the spec: h2_body_len (h2_msg.c, not in src/) is the length
of the body byte string. -/
def h2_body_len (m : h2_msg) : Nat := m.body.length

/-- Modelled from the spec: h2_cpy_body (h2_msg.c, not in src/) copies a
counted byte range into the body.  The C prototype takes an int length; a
negative length (possible only after a negative Content-Length header, where
the C behavior is undefined) is modelled as an empty copy via Int.toNat. -/
def h2_cpy_body (m : h2_msg) (src : List Nat) (n : Int) : h2_msg :=
  { m with body := src.take n.toNat }

/-! ## HTTP/1.1 first-line and header-line processing

Translated from the per-line blocks of h2_sess_recv_hdl_once_v1_1
(h2_io.c lines 494-572).  Each block becomes a named function on the extracted
line bytes; the enclosing line loop is `headerLoop` below. -/

/-- Tail-trim loop of the request-line handling (h2_io.c lines 507-510):
drop trailing spaces/tabs while at least 3 bytes (method, separator, path)
remain.  Fuel-based recursion; the fuel is the list length, which bounds the
number of single-byte drops. -/
def trimTail3Go : Nat → List Nat → List Nat
  | 0, l => l
  | fuel + 1, l =>
    if 3 ≤ l.length ∧ isSpTab (l.getLastD 0) then trimTail3Go fuel l.dropLast else l

/-- Tail trim of the request line, entry point. -/
def trimTail3 (l : List Nat) : List Nat := trimTail3Go l.length l

/-- Tail trim of a header value (h2_io.c lines 553-555): drop all trailing
spaces/tabs. -/
def dropTrailWS (l : List Nat) : List Nat := (l.reverse.dropWhile isSpTab).reverse

/-- Translated from h2_io.c lines 496-522: server-side Request-Line handling.
Succeeds when the line has at least 1+1+1+1+8 = 12 bytes and its last 8 bytes
are HTTP/1.1; then strips the version, trims trailing whitespace down to at
least 3 remaining bytes, takes the method as the run of non-space bytes from
the start, skips whitespace, and takes the path as the remainder.  Scheme is
https when TLS is active, else http; the authority is tentatively the string
http (overridden by a Host header).  On failure returns the C error -1. -/
def procRequestLine (ssl : Bool) (line : List Nat) (rmsg : h2_msg) : Except Int h2_msg :=
  if 12 ≤ line.length ∧ line.drop (line.length - 8) = HTTP11bytes then
    let l2 := trimTail3 (line.take (line.length - 8))
    let method := l2.takeWhile (fun c => !(isSpTab c))
    let rest := l2.dropWhile (fun c => !(isSpTab c))
    let path := rest.dropWhile isSpTab
    let m1 := h2_set_method_n rmsg method
    let m2 := h2_set_scheme m1 (if ssl then httpsBytes else httpBytes)
    let m3 := h2_set_authority m2 httpBytes
    .ok (h2_set_path_n m3 path)
  else
    .error (-1)

/-- Translated from h2_io.c lines 524-540: client-side Status-Line handling.
Succeeds when the line has at least 3 bytes, its first byte is an ASCII digit
in 1..5, its next two bytes are ASCII digits, and either the line has no
fourth byte or the fourth byte is a space or tab; then the status is the
3-digit decimal number and the rest of the line (reason phrase) is ignored.
On failure returns the C error -2. -/
def procStatusLine (line : List Nat) (rmsg : h2_msg) : Except Int h2_msg :=
  if 3 ≤ line.length ∧
     49 ≤ line.getD 0 0 ∧ line.getD 0 0 ≤ 53 ∧
     48 ≤ line.getD 1 0 ∧ line.getD 1 0 ≤ 57 ∧
     48 ≤ line.getD 2 0 ∧ line.getD 2 0 ≤ 57 ∧
     (line.length ≤ 3 ∨ line.getD 3 0 = 32 ∨ line.getD 3 0 = 9) then
    .ok (h2_set_status rmsg
          ((line.getD 0 0 - 48) * 100 + (line.getD 1 0 - 48) * 10 + (line.getD 2 0 - 48) * 1))
  else
    .error (-2)

/-- Translated from h2_io.c lines 542-572: message-header line handling.
The line is split at the first colon; the value is trimmed of leading and
trailing spaces/tabs.  A 4-byte name equal to host case-insensitively on a
server session sets the authority; a 14-byte name equal to content-length
case-insensitively sets the expected content length via C `atoi` applied at
the value pointer — `atoi` is not bounded by the line end, so its input is the
lead-trimmed value bytes followed by the rest of the buffer (`rest` is the
buffer contents from the line end to the end of valid data); every other pair
is appended to the header list.  A line with no colon returns the C error -3.
Returns the updated message and the updated expected content length. -/
def procHeaderLine (is_server : Bool) (line rest : List Nat) (rmsg : h2_msg) (clen : Int) :
    Except Int (h2_msg × Int) :=
  match line.findIdx? (· == 58) with
  | none => .error (-3)
  | some j =>
    let name := line.take j
    let v0 := (line.drop (j + 1)).dropWhile isSpTab
    let value := dropTrailWS v0
    if name.length = 4 ∧ name.map toLowerB = hostLower ∧ is_server then
      .ok (h2_set_authority_n rmsg value, clen)
    else if name.length = 14 ∧ name.map toLowerB = contentLengthLower then
      .ok (rmsg, atoiC (v0 ++ rest))
    else
      .ok (h2_add_hdr_n rmsg name value, clen)

/-! ## HTTP/1.1 receive path: session state and the incremental parser

State of one session as touched by h2_sess_recv_v1_1 and
h2_sess_recv_hdl_once_v1_1 (h2_io.c lines 449-670).  The read buffer `rdata`
is `none` when the C pointer is NULL, and otherwise holds exactly the valid
bytes `[0, rdata_size)` of the allocation (`rdata_alloced` tracks the
allocation size).  Streams are modelled by their receive message only;
`strm_recving` is the index of the stream being received into (the C pointer).
User callback return codes (h2_sess.c, not in src/) are an oracle list
`cb_results`, popped once per completed message, defaulting to 0. -/

structure rstrm where
  stream_id : Nat := 0
  rmsg : h2_msg := {}
deriving DecidableEq

structure h2_sess_rv where
  is_server : Bool := false
  ssl : Bool := false
  strm_list : List rstrm := []
  strm_recving : Option Nat := none
  rmsg_header_done : Bool := false
  rmsg_header_line : Nat := 0
  rmsg_content_length : Int := 0
  rdata : Option (List Nat) := none
  rdata_alloced : Nat := 0
  rdata_size : Nat := 0
  rdata_used : Nat := 0
  rdata_offset : Nat := 0
  req_cnt : Nat := 0
  rsp_cnt : Nat := 0
  strm_close_cnt : Nat := 0
  is_terminated : Nat := 0
  cb_results : List Int := []
deriving DecidableEq

/-- Modelled from the spec: pop the next user-callback return code (negative
return from a receive callback signals the session to fail); 0 when the oracle
list is exhausted. -/
def popCb (s : h2_sess_rv) : Int × h2_sess_rv :=
  match s.cb_results with
  | [] => (0, s)
  | r :: t => (r, { s with cb_results := t })

/-- Modelled from the spec: h2_on_request_recv (h2_sess.c, not in src/)
invokes the user request callback and returns its code. -/
def h2_on_request_recv (s : h2_sess_rv) : Int × h2_sess_rv := popCb s

/-- Modelled from the spec: h2_on_response_recv (h2_sess.c, not in src/)
invokes the user response callback, accounts the response, and returns the
callback code. -/
def h2_on_response_recv (s : h2_sess_rv) : Int × h2_sess_rv :=
  match popCb s with
  | (r, s1) => (r, { s1 with rsp_cnt := s1.rsp_cnt + 1 })

/-- Modelled from the spec: h2_strm_init (h2_sess.c, not in src/) creates a
stream with the given identifier and a fresh receive message, linked at the
tail of the session's FIFO stream list. -/
def h2_strm_init_rv (s : h2_sess_rv) (sid : Nat) : h2_sess_rv :=
  { s with strm_list := s.strm_list ++ [{ stream_id := sid, rmsg := {} }] }

/-- The valid bytes of the read buffer (empty when the C pointer is NULL). -/
def getRdata (s : h2_sess_rv) : List Nat := s.rdata.getD []

/-- Write the message under construction back into the stream list at the
given index (in C the message is mutated in place through the stream
pointer). -/
def writeRmsg (s : h2_sess_rv) (idx : Nat) (m : h2_msg) : h2_sess_rv :=
  match s.strm_list.get? idx with
  | none => s
  | some strm => { s with strm_list := s.strm_list.set idx { strm with rmsg := m } }

/-- C `memchr` for the newline byte on the region [p, limit) of the buffer:
index of the first \n at or after p, below limit. -/
def findNLFrom (data : List Nat) (p limit : Nat) : Option Nat :=
  match ((data.drop p).take (limit - p)).findIdx? (· == 10) with
  | none => none
  | some k => some (p + k)

/-- Translated from h2_io.c lines 476-580: the header-line loop of
h2_sess_recv_hdl_once_v1_1.  Starting at `base` (= rdata_used), repeatedly
find the next \n below rdata_size; strip a \r directly before it; an empty
line ends the headers (consume it and set rmsg_header_done); otherwise line 0
goes to the request-line or status-line handler and later lines to the
header-line handler, consuming the line and counting it.  A handler error
aborts with that error.  The fuel is one more than the buffer size, which
bounds the iteration count because every iteration consumes at least one byte;
at fuel 0 (never reached from the entry point) the loop reports clean exit. -/
def headerLoop : Nat → h2_sess_rv → h2_msg → Nat → h2_sess_rv × h2_msg × Int
  | 0, s, rmsg, _ => (s, rmsg, 0)
  | fuel + 1, s, rmsg, base =>
    let data := getRdata s
    let limit := s.rdata_size
    if base < limit then
      match findNLFrom data base limit with
      | none => (s, rmsg, 0)
      | some q =>
        let lineEnd := if base < q ∧ data.getD (q - 1) 0 = 13 then q - 1 else q
        if lineEnd = base then
          ({ s with rdata_used := q + 1, rmsg_header_done := true }, rmsg, 0)
        else
          let line := (data.drop base).take (lineEnd - base)
          if s.rmsg_header_line = 0 then
            match (if s.is_server then procRequestLine s.ssl line rmsg
                   else procStatusLine line rmsg) with
            | .error e => (s, rmsg, e)
            | .ok rmsg1 =>
              headerLoop fuel
                { s with rdata_used := q + 1, rmsg_header_line := s.rmsg_header_line + 1 }
                rmsg1 (q + 1)
          else
            match procHeaderLine s.is_server line ((data.drop lineEnd).take (limit - lineEnd))
                    rmsg s.rmsg_content_length with
            | .error e => (s, rmsg, e)
            | .ok (rmsg1, clen1) =>
              headerLoop fuel
                { s with rdata_used := q + 1, rmsg_header_line := s.rmsg_header_line + 1,
                         rmsg_content_length := clen1 }
                rmsg1 (q + 1)
    else (s, rmsg, 0)

/-- Translated from h2_io.c lines 449-614 (h2_sess_recv_hdl_once_v1_1):
returns 1 when a message parse completed, 0 when not completed, negative on
error.  Phase 1 picks or creates the receiving stream (server: new tail
stream with synthetic id req_cnt*2+1; client: the FIFO head stream, and
receiving with no outstanding request is the error -1) and resets the
per-message parse state.  Phase 2 runs the header-line loop.  Phase 3 waits
for content_length bytes of body, copies them, and on completion calls the
user callback (server: after counting the request; client: then frees the
head stream and counts the close). -/
def h2_sess_recv_hdl_once_v1_1 (s0 : h2_sess_rv) : h2_sess_rv × Int :=
  let setup : Option (h2_sess_rv × Nat) :=
    match s0.strm_recving with
    | some i => some (s0, i)
    | none =>
      if s0.is_server then
        let s1 := h2_strm_init_rv s0 (s0.req_cnt * 2 + 1)
        some ({ s1 with strm_recving := some s0.strm_list.length,
                        rmsg_header_done := false, rmsg_header_line := 0,
                        rmsg_content_length := 0 },
              s0.strm_list.length)
      else
        match s0.strm_list with
        | [] => none
        | _ :: _ =>
          some ({ s0 with strm_recving := some 0,
                          rmsg_header_done := false, rmsg_header_line := 0,
                          rmsg_content_length := 0 }, 0)
  match setup with
  | none => (s0, -1)
  | some (s1, idx) =>
    let rmsg0 := ((s1.strm_list.get? idx).map rstrm.rmsg).getD {}
    match (if !s1.rmsg_header_done then headerLoop (s1.rdata_size + 1) s1 rmsg0 s1.rdata_used
           else (s1, rmsg0, 0)) with
    | (s2, rmsg1, herr) =>
      if herr < 0 then (writeRmsg s2 idx rmsg1, herr)
      else if s2.rmsg_header_done then
        let bodyStep : h2_sess_rv × h2_msg :=
          if s2.rmsg_content_length ≠ 0 ∧ h2_body_len rmsg1 = 0 then
            if (s2.rdata_size : Int) - (s2.rdata_used : Int) ≥ s2.rmsg_content_length then
              ({ s2 with rdata_used := s2.rdata_used + s2.rmsg_content_length.toNat },
               h2_cpy_body rmsg1 ((getRdata s2).drop s2.rdata_used) s2.rmsg_content_length)
            else (s2, rmsg1)
          else (s2, rmsg1)
        match bodyStep with
        | (s3, rmsg2) =>
          if s3.rmsg_content_length = (h2_body_len rmsg2 : Int) then
            if s3.is_server then
              match h2_on_request_recv (writeRmsg { s3 with req_cnt := s3.req_cnt + 1 } idx rmsg2) with
              | (r, s4) => ({ s4 with strm_recving := none }, if 0 ≤ r then 1 else r)
            else
              match h2_on_response_recv (writeRmsg s3 idx rmsg2) with
              | (r, s4) =>
                ({ s4 with strm_list := s4.strm_list.eraseIdx idx,
                           strm_close_cnt := s4.strm_close_cnt + 1,
                           strm_recving := none }, if 0 ≤ r then 1 else r)
          else (writeRmsg s3 idx rmsg2, 0)
      else (writeRmsg s2 idx rmsg1, 0)

/-- The default read-buffer allocation, RDATA_ALLOC_DEF in h2_io.c (16 KiB). -/
def RDATA_ALLOC_DEF : Nat := 16 * 1024

/-- Translated from h2_io.c lines 617-644: append a received chunk to the read
buffer.  First receive allocates the default capacity or the chunk size,
whichever is larger; a chunk that fits the free tail is appended; otherwise
the buffer is compacted (consumed bytes dropped, the running offset advanced)
and grown when still insufficient, then the chunk is appended. -/
def rdataAppend (s : h2_sess_rv) (data : List Nat) : h2_sess_rv :=
  match s.rdata with
  | none =>
    { s with rdata_alloced := if data.length ≥ RDATA_ALLOC_DEF then data.length else RDATA_ALLOC_DEF,
             rdata := some data, rdata_size := data.length, rdata_used := 0 }
  | some old =>
    if s.rdata_alloced ≥ s.rdata_size + data.length then
      { s with rdata := some (old ++ data), rdata_size := s.rdata_size + data.length }
    else
      { s with
          rdata_alloced :=
            if s.rdata_alloced < s.rdata_size - s.rdata_used + data.length then
              s.rdata_size - s.rdata_used + data.length
            else s.rdata_alloced,
          rdata_offset := s.rdata_offset + s.rdata_used,
          rdata := some (old.drop s.rdata_used ++ data),
          rdata_size := s.rdata_size - s.rdata_used + data.length,
          rdata_used := 0 }

/-- Translated from h2_io.c lines 647-653: parse as many messages as possible.
Repeats h2_sess_recv_hdl_once_v1_1 while it returns 1, stopping early when all
buffered bytes are consumed or the session is immediately terminated.  Fuel
bounds the iterations (every completed message consumes at least one byte);
fuel exhaustion, never reached on inputs with non-negative content lengths,
reports 0. -/
def recvLoop : Nat → h2_sess_rv → h2_sess_rv × Int
  | 0, s => (s, 0)
  | fuel + 1, s =>
    match h2_sess_recv_hdl_once_v1_1 s with
    | (s1, r) =>
      if r = 1 then
        if s1.rdata_used = s1.rdata_size ∨ s1.is_terminated = 1 then (s1, 1)
        else recvLoop fuel s1
      else (s1, r)

/-- Translated from h2_io.c lines 616-670 (h2_sess_recv_v1_1): append the
chunk, run the parse loop, return -1 when the loop failed; otherwise free the
read buffer when it is fully consumed and was grown beyond the default
capacity, and return the chunk size. -/
def h2_sess_recv_v1_1 (s0 : h2_sess_rv) (data : List Nat) : h2_sess_rv × Int :=
  let s1 := rdataAppend s0 data
  match recvLoop (s1.rdata_size + 2) s1 with
  | (s2, r) =>
    if r < 0 then (s2, -1)
    else
      (if s2.rdata_used = s2.rdata_size ∧ s2.rdata_alloced > RDATA_ALLOC_DEF then
        { s2 with rdata_offset := s2.rdata_offset + s2.rdata_used,
                  rdata := none, rdata_alloced := 0, rdata_size := 0, rdata_used := 0 }
       else s2,
       (data.length : Int))

/-! ## Session send path

Write-buffer state and the single send step, translated from
h2_sess_send_once_v2 (h2_io.c lines 125-306) and h2_sess_send_once_v1_1
(h2_io.c lines 672-882).  The socket/TLS layer is an oracle list of write
results consumed one per write attempt (a TLS success is a full write, a TCP
success may be partial; WANT_WRITE, EAGAIN, EWOULDBLOCK and EINTR are all the
would-block result; other failures are the error result).  The nghttp2 codec's
mem_send is an oracle list of chunk sizes for the v2 variant (negative = codec
error, 0 or list end = nothing pending).  Only the region sizes matter to the
claims, so the write buffer tracks merge_size and mem_send_size. -/

/-- H2_WR_BUF_SIZE, the merge-buffer capacity.  Defined in h2_priv.h, which is
not in src/; modelled from the spec (a fixed staging area of about 16 KiB). -/
def H2_WR_BUF_SIZE : Nat := 16 * 1024

structure h2_wr_buf where
  merge_size : Nat := 0
  mem_send_size : Nat := 0
deriving DecidableEq

/-- One socket/TLS write attempt outcome.  For `sent n`, the layer accepted
`min n requested` bytes (C send() returns at most the requested size and at
least 1; a 0 return would take an errno-dependent branch that well-formed
oracles avoid). -/
inductive SockRes where
  | wouldBlock
  | sockErr
  | sent (n : Nat)
deriving DecidableEq

/-- Pop the next socket write result; an exhausted oracle behaves as a
would-block socket. -/
def popSock : List SockRes → SockRes × List SockRes
  | [] => (.wouldBlock, [])
  | r :: t => (r, t)

structure SendSt where
  wb : h2_wr_buf := {}
  send_pending : Bool := false
deriving DecidableEq

/-- Translated from h2_io.c lines 288-297: when nothing was sent in this step,
clear the writable interest (h2_sess_clear_send_pending); otherwise return the
byte count. -/
def finishSend (sock : List SockRes) (st : SendSt) (total : Nat) :
    SendSt × Int × List SockRes :=
  if total = 0 then ({ st with send_pending := false }, 0, sock)
  else (st, (total : Int), sock)

/-- Translated from h2_io.c lines 234-286: try to send mem_send_data once.
Would-block marks send-pending and returns the bytes sent so far; an error
returns -5 (the socket close reason is tagged by the caller); a partial write
advances the borrowed span and marks send-pending; a full write clears the
span. -/
def sendMemPhase (sock : List SockRes) (st : SendSt) (total : Nat) :
    SendSt × Int × List SockRes :=
  if st.wb.mem_send_size ≠ 0 then
    match popSock sock with
    | (.wouldBlock, sock1) => ({ st with send_pending := true }, (total : Int), sock1)
    | (.sockErr, sock1) => (st, -5, sock1)
    | (.sent n, sock1) =>
      let sent := min n st.wb.mem_send_size
      if sent < st.wb.mem_send_size then
        ({ st with wb := { st.wb with mem_send_size := st.wb.mem_send_size - sent },
                   send_pending := true }, ((total + sent : Nat) : Int), sock1)
      else
        finishSend sock1 { st with wb := { st.wb with mem_send_size := 0 } } (total + sent)
  else finishSend sock st total

/-- Translated from h2_io.c lines 179-297: try to send merge_data once, then
the mem_send span, then the no-data bookkeeping.  Would-block marks
send-pending and returns 0; an error returns -3; a partial write compacts the
merge buffer and marks send-pending; a full write moves on to the mem_send
span. -/
def sendWritePhase (sock : List SockRes) (st : SendSt) : SendSt × Int × List SockRes :=
  if st.wb.merge_size > 0 then
    match popSock sock with
    | (.wouldBlock, sock1) => ({ st with send_pending := true }, 0, sock1)
    | (.sockErr, sock1) => (st, -3, sock1)
    | (.sent n, sock1) =>
      let sent := min n st.wb.merge_size
      if sent < st.wb.merge_size then
        ({ st with wb := { st.wb with merge_size := st.wb.merge_size - sent },
                   send_pending := true }, (sent : Int), sock1)
      else
        sendMemPhase sock1 { st with wb := { st.wb with merge_size := 0 } } sent
  else sendMemPhase sock st 0

/-- Translated from h2_io.c lines 144-174: pull frames from
nghttp2_session_mem_send while the mem_send span is empty and the merge buffer
is below capacity; a chunk that fits is copied into the merge buffer, the
first chunk that does not fit becomes the mem_send span, a zero chunk (or an
exhausted oracle) means nothing more is pending, a negative chunk is the codec
error (the step returns -1). -/
def fillV2 : List Int → h2_wr_buf → List Int × h2_wr_buf × Option Int
  | chunks, wb =>
    if wb.mem_send_size = 0 ∧ wb.merge_size < H2_WR_BUF_SIZE then
      match chunks with
      | [] => ([], wb, none)
      | c :: rest =>
        if c < 0 then (rest, wb, some (-1))
        else if c = 0 then (rest, wb, none)
        else if wb.merge_size + c.toNat ≤ H2_WR_BUF_SIZE then
          fillV2 rest { wb with merge_size := wb.merge_size + c.toNat }
        else (rest, { wb with mem_send_size := c.toNat }, none)
    else (chunks, wb, none)

/-- Translated from h2_io.c lines 125-306 (h2_sess_send_once_v2, poll build):
fill the write buffer from the codec, then run the write phase.  Returns the
updated state, the C return value, and the rest of the socket oracle. -/
def h2_sess_send_once_v2 (chunks : List Int) (sock : List SockRes) (st : SendSt) :
    SendSt × Int × List SockRes :=
  match fillV2 chunks st.wb with
  | (_, wb1, some e) => ({ st with wb := wb1 }, e, sock)
  | (_, wb1, none) => sendWritePhase sock { st with wb := wb1 }

/-- Send-side view of one stream for the HTTP/1.1 send path: whether its
response has been set (server side) and the send-body read cursor
(send_body_rb.data_used / data_size). -/
structure h1strm where
  response_set : Bool := true
  data_used : Nat := 0
  data_size : Nat := 0
deriving DecidableEq

/-- Translated from h2_io.c lines 695-718 (server arm of the v1.1 fill loop):
walk streams from the head while their response is set; a fully sent stream is
freed (h2_strm_free) and counted closed; the first stream with unsent data
yields its remaining slice and its cursor jumps to the end (the bytes are
borrowed into the write buffer).  Returns the remaining stream list, the
number of streams closed, and the slice size (0 = no data). -/
def strmScanServer : List h1strm → List h1strm × Nat × Nat
  | [] => ([], 0, 0)
  | strm :: rest =>
    if strm.response_set then
      if strm.data_used ≥ strm.data_size then
        match strmScanServer rest with
        | (l, c, s) => (l, c + 1, s)
      else
        ({ strm with data_used := strm.data_size } :: rest, 0,
         strm.data_size - strm.data_used)
    else (strm :: rest, 0, 0)

/-- Translated from h2_io.c lines 719-733 (client arm of the v1.1 fill loop):
walk forward from the sending cursor (an index into the FIFO stream list; the
C strm_sending pointer), skipping exhausted streams; the first stream with
unsent data yields its remaining slice and its cursor jumps to the end.
Returns the updated list, the new sending cursor (none = NULL, end of list),
and the slice size.  Structural recursion on the remaining fuel
(list length minus the index is decreasing). -/
def strmScanClient (fuel : Nat) (streams : List h1strm) (i : Nat) :
    List h1strm × Option Nat × Nat :=
  match fuel with
  | 0 => (streams, none, 0)
  | fuel + 1 =>
    match streams.get? i with
    | none => (streams, none, 0)
    | some strm =>
      if strm.data_used ≥ strm.data_size then
        strmScanClient fuel streams (i + 1)
      else
        (streams.set i { strm with data_used := strm.data_size }, some i,
         strm.data_size - strm.data_used)

/-- Translated from h2_io.c lines 688-753: the v1.1 fill loop.  While the
mem_send span is empty and the merge buffer below capacity, pull one body
slice from the streams (server or client arm); no slice ends the loop, a
fitting slice is merged, an oversize slice becomes the mem_send span.  The
fuel bounds the iterations: each merged slice is at least one byte, so the
merge size strictly grows toward the capacity.  Returns streams, sending
cursor, closed-stream count increment, and the write buffer. -/
def fillV11 : Nat → Bool → List h1strm → Option Nat → Nat → h2_wr_buf →
    List h1strm × Option Nat × Nat × h2_wr_buf
  | 0, _, streams, sending, closeInc, wb => (streams, sending, closeInc, wb)
  | fuel + 1, isServer, streams, sending, closeInc, wb =>
    if wb.mem_send_size = 0 ∧ wb.merge_size < H2_WR_BUF_SIZE then
      let scan : List h1strm × Option Nat × Nat × Nat :=
        if isServer then
          match strmScanServer streams with
          | (l, c, s) => (l, sending, c, s)
        else
          let i0 := match sending with | none => 0 | some i => i
          match strmScanClient (streams.length + 1 - i0) streams i0 with
          | (l, snd, s) => (l, snd, 0, s)
      match scan with
      | (streams1, sending1, cinc, ssize) =>
        if ssize = 0 then (streams1, sending1, closeInc + cinc, wb)
        else if wb.merge_size + ssize ≤ H2_WR_BUF_SIZE then
          fillV11 fuel isServer streams1 sending1 (closeInc + cinc)
            { wb with merge_size := wb.merge_size + ssize }
        else (streams1, sending1, closeInc + cinc, { wb with mem_send_size := ssize })
    else (streams, sending, closeInc, wb)

/-- Translated from h2_io.c lines 672-882 (h2_sess_send_once_v1_1): fill the
write buffer from the session's streams, then run the same write phase as the
v2 variant (the C code duplicates it verbatim).  Returns the updated stream
list, sending cursor and closed-stream increment, the updated write-buffer /
send-pending state, the C return value, and the rest of the socket oracle. -/
def h2_sess_send_once_v1_1 (isServer : Bool) (streams : List h1strm)
    (sending : Option Nat) (sock : List SockRes) (st : SendSt) :
    (List h1strm × Option Nat × Nat) × SendSt × Int × List SockRes :=
  match fillV11 (H2_WR_BUF_SIZE + 1) isServer streams sending 0 st.wb with
  | (streams1, sending1, closeInc, wb1) =>
    match sendWritePhase sock { st with wb := wb1 } with
    | (st1, r, sock1) => ((streams1, sending1, closeInc), st1, r, sock1)

/-! ## Session termination

Translated from h2_sess_terminate (h2_io.c lines 977-1037).  The session
fields it touches, plus flags recording the externally visible actions
(socket/TLS shutdown directions, the codec terminate call); `ng_term_fail` is
the environment's answer for nghttp2_session_terminate_session. -/

/-- HTTP version tags: H2_HTTP_V2 is 2, H2_HTTP_V1_1 is 1 in this model. -/
def H2_HTTP_V2 : Nat := 2

structure h2_sess_t where
  is_terminated : Nat := 0
  is_server : Bool := false
  req_cnt : Nat := 0
  rsp_cnt : Nat := 0
  http_ver : Nat := H2_HTTP_V2
  ssl : Bool := false
  send_pending : Bool := false
  shut_wr : Bool := false
  shut_rd : Bool := false
  codec_goaway : Bool := false
  ng_term_fail : Bool := false
deriving DecidableEq

/-- Translated from h2_io.c lines 977-1037 (h2_sess_terminate).  A NULL
session or one already in state 1 returns 1 (already terminated) with no side
effect.  A wait-response terminate on a client with outstanding requests
enters state 2 and half-closes the write direction (HTTP/1.1; for HTTP/2 the
GOAWAY submission is disabled in the source).  Otherwise the session enters
state 1; HTTP/2 tells the codec to terminate (a codec failure returns -1
before the send-pending mark), HTTP/1.1 shuts the socket down in both
directions; then send-pending is marked so the loop flushes residue. -/
def h2_sess_terminate : Option h2_sess_t → Int → Option h2_sess_t × Int
  | none, _ => (none, 1)
  | some sess, wait_rsp =>
    if sess.is_terminated = 1 then (some sess, 1)
    else if wait_rsp ≠ 0 ∧ sess.is_server = false ∧ sess.req_cnt > sess.rsp_cnt then
      let sess1 := { sess with is_terminated := 2 }
      if sess.http_ver = H2_HTTP_V2 then (some sess1, 0)
      else (some { sess1 with shut_wr := true }, 0)
    else
      let sess1 := { sess with is_terminated := 1 }
      if sess.http_ver = H2_HTTP_V2 then
        if sess.ng_term_fail then (some sess1, -1)
        else (some { sess1 with codec_goaway := true, send_pending := true }, 0)
      else
        (some { sess1 with shut_wr := true, shut_rd := true, send_pending := true }, 0)

/-! ## HTTP/2 SETTINGS handling

Translated from h2_settings_init and h2_sess_send_settings (h2_io.c lines
386-442).  The nghttp2 SETTINGS identifiers are the protocol constants from
nghttp2.h (an external interface): HEADER_TABLE_SIZE 1, ENABLE_PUSH 2,
MAX_CONCURRENT_STREAMS 3, INITIAL_WINDOW_SIZE 4, MAX_FRAME_SIZE 5,
MAX_HEADER_LIST_SIZE 6, ENABLE_CONNECT_PROTOCOL 8. -/

structure h2_settings where
  header_table_size : Int := -1
  enable_push : Int := -1
  max_concurrent_streams : Int := -1
  initial_window_size : Int := -1
  max_frame_size : Int := -1
  max_header_list_size : Int := -1
  enable_connect_protocol : Int := -1
deriving DecidableEq

/-- Translated from h2_io.c lines 386-395 (h2_settings_init): every field is
initialized to -1, meaning do not send. -/
def h2_settings_init : h2_settings :=
  { header_table_size := -1, enable_push := -1, max_concurrent_streams := -1,
    initial_window_size := -1, max_frame_size := -1, max_header_list_size := -1,
    enable_connect_protocol := -1 }

/-- One conditional append of the iv-building code: a settings entry is added
exactly when the field value is non-negative. -/
def settingsEntry (v : Int) (id : Nat) : List (Nat × Int) :=
  if 0 ≤ v then [(id, v)] else []

/-- Translated from h2_io.c lines 405-434: the settings vector passed to
nghttp2_submit_settings, built by the seven conditional appends in source
order (a NULL settings pointer yields the empty vector). -/
def h2_sess_send_settings_iv : Option h2_settings → List (Nat × Int)
  | none => []
  | some s =>
    settingsEntry s.header_table_size 1 ++
    settingsEntry s.enable_push 2 ++
    settingsEntry s.max_concurrent_streams 3 ++
    settingsEntry s.initial_window_size 4 ++
    settingsEntry s.max_frame_size 5 ++
    settingsEntry s.max_header_list_size 6 ++
    settingsEntry s.enable_connect_protocol 8

/-- Translated from h2_io.c lines 397-442 (h2_sess_send_settings): on a
session that is not HTTP/2 the submission is simply ignored and the call
reports success (returns 0, nothing submitted); otherwise the vector is
submitted to the codec (submitOk is the external codec answer; a failed
submission returns -1) and the session send path is run (sendRet is its
result).  The first component is the vector handed to the codec, none when no
submission happened. -/
def h2_sess_send_settings (http_ver : Nat) (settings : Option h2_settings)
    (submitOk : Bool) (sendRet : Int) : Option (List (Nat × Int)) × Int :=
  if http_ver ≠ H2_HTTP_V2 then (none, 0)
  else if submitOk then (some (h2_sess_send_settings_iv settings), sendRet)
  else (some (h2_sess_send_settings_iv settings), -1)

/-! ## Peer: round-robin request routing and construction

Translated from h2_peer_send_request (h2_io.c lines 2088-2138) and the
threshold handling of h2_peer_connect (h2_io.c lines 1969-2037).  Peer slots
hold the terminate-relevant session state; absent slots are none. -/

structure h2_peer_st where
  sess_num : Nat := 0
  req_thr_for_reconn : Int := 0
  sess : List (Option h2_sess_t) := []
  act_sess : List Bool := []
  act_sess_num : Int := 0
  next_sess_idx : Nat := 0
  is_terminated : Nat := 0
deriving DecidableEq

/-- Modelled from the spec: h2_send_request (h2_sess.c, not in src/) submits
one request on the session, creating a stream and counting the request; `ret`
is the externally determined user-visible result code. -/
def h2_send_request (sess : h2_sess_t) (ret : Int) : h2_sess_t × Int :=
  ({ sess with req_cnt := sess.req_cnt + 1 }, ret)

/-- The rotation (house-keeping) condition of h2_io.c lines 2103-2105: a
positive per-session request threshold that the candidate has reached, while
every slot is active. -/
def rotCond (p : h2_peer_st) (sess : h2_sess_t) : Prop :=
  p.req_thr_for_reconn > 0 ∧ (sess.req_cnt : Int) ≥ p.req_thr_for_reconn ∧
  p.act_sess_num ≥ (p.sess_num : Int)

instance (p : h2_peer_st) (sess : h2_sess_t) : Decidable (rotCond p sess) := by
  unfold rotCond; infer_instance

/-- The effect of rotating out the candidate at slot si (h2_io.c lines
2106-2112): clear its active flag, decrement the active count, and terminate
the session with wait_rsp true. -/
def rotateSlot (p : h2_peer_st) (si : Nat) (sess : h2_sess_t) : h2_peer_st :=
  { p with act_sess := p.act_sess.set si false,
           act_sess_num := p.act_sess_num - 1,
           sess := p.sess.set si (h2_sess_terminate (some sess) 1).1 }

/-- Translated from h2_io.c lines 2099-2118: the round-robin probe loop.
From offset i, probe slot (nsi + i) mod n; a present, active candidate is
either rotated out (rotation condition) and the search continues, or selected
(returning its slot index and the exit offset); an absent or inactive slot is
skipped.  The fuel starts at n, so the loop visits at most n slots and the
exit offset is n when nothing was selected. -/
def peerProbe (nsi n : Nat) : Nat → h2_peer_st → Nat → h2_peer_st × Option Nat × Nat
  | 0, p, i => (p, none, i)
  | fuel + 1, p, i =>
    if i < n then
      let si := (nsi + i) % n
      match (p.sess.get? si).getD none with
      | some sess =>
        if p.act_sess.getD si false then
          if rotCond p sess then peerProbe nsi n fuel (rotateSlot p si sess) (i + 1)
          else (p, some si, i)
        else peerProbe nsi n fuel p (i + 1)
      | none => peerProbe nsi n fuel p (i + 1)
    else (p, none, i)

/-- Translated from h2_io.c lines 2088-2138 (h2_peer_send_request): refuse a
terminating peer (-1, nothing else changes); otherwise run the probe loop from
next_sess_idx, advance next_sess_idx to (start + exit offset + 1) mod n even
when no session was found, and send the request on the selected session (-1
when none is available).  `sendRet` is the external result of
h2_send_request. -/
def h2_peer_send_request (p : h2_peer_st) (sendRet : Int) : h2_peer_st × Int :=
  let n := p.sess_num
  let nsi := p.next_sess_idx
  if p.is_terminated ≠ 0 then (p, -1)
  else
    match peerProbe nsi n n p 0 with
    | (p1, found, i) =>
      let p2 := { p1 with next_sess_idx := (nsi + i + 1) % n }
      match found with
      | some si =>
        match (p2.sess.get? si).getD none with
        | some sess =>
          match h2_send_request sess sendRet with
          | (sess1, r) => ({ p2 with sess := p2.sess.set si (some sess1) }, r)
        | none => (p2, -1)
      | none => (p2, -1)

/-- Translated from h2_io.c lines 1969-2037 (h2_peer_connect), the parts that
determine the peer record: a non-zero reconnect threshold with a single
session slot is forced to 0 with only a warning; the slots are then connected
one by one (`connectOk` is the environment's answer for each initial connect,
h2_connect being network I/O), the round-robin cursor starts at 0, and the
construction fails (NULL) when no slot connected. -/
def h2_peer_connect (sess_num : Nat) (req_thr_for_reconn : Int)
    (connectOk : List Bool) : Option h2_peer_st :=
  let req_thr := if req_thr_for_reconn ≠ 0 ∧ sess_num = 1 then 0 else req_thr_for_reconn
  let acts := (List.range sess_num).map (fun i => connectOk.getD i false)
  let slots := (List.range sess_num).map
    (fun i => if connectOk.getD i false then some ({ is_server := false } : h2_sess_t) else none)
  let act_num := (acts.filter id).length
  if act_num ≤ 0 then none
  else some { sess_num := sess_num, req_thr_for_reconn := req_thr, sess := slots,
              act_sess := acts, act_sess_num := (act_num : Int), next_sess_idx := 0,
              is_terminated := 0 }

/-! ## Theorems -/

/-- The write-buffer/send-pending invariant of claim C1: both staging regions
are empty, or writable interest is registered. -/
def wbIdleOrPending (st : SendSt) : Prop :=
  (st.wb.merge_size = 0 ∧ st.wb.mem_send_size = 0) ∨ st.send_pending = true

instance (st : SendSt) : Decidable (wbIdleOrPending st) := by
  unfold wbIdleOrPending; infer_instance

theorem finishSend_inv (sock : List SockRes) (st : SendSt) (total : Nat)
    (st1 : SendSt) (r : Int) (sock1 : List SockRes)
    (hm : st.wb.merge_size = 0) (hs : st.wb.mem_send_size = 0)
    (heq : finishSend sock st total = (st1, r, sock1)) :
    wbIdleOrPending st1 := by
  unfold finishSend at heq
  split at heq <;>
    (simp only [Prod.mk.injEq] at heq; obtain ⟨rfl, -, -⟩ := heq;
     simp [wbIdleOrPending, hm, hs])

theorem sendMemPhase_inv (sock : List SockRes) (st : SendSt) (total : Nat)
    (st1 : SendSt) (r : Int) (sock1 : List SockRes)
    (hm : st.wb.merge_size = 0)
    (heq : sendMemPhase sock st total = (st1, r, sock1)) (hr : 0 ≤ r) :
    wbIdleOrPending st1 := by
  unfold sendMemPhase at heq
  split at heq
  · cases sock with
    | nil =>
      simp only [popSock] at heq
      simp only [Prod.mk.injEq] at heq
      obtain ⟨rfl, -, -⟩ := heq
      simp [wbIdleOrPending]
    | cons res rest =>
      simp only [popSock] at heq
      cases res with
      | wouldBlock =>
        simp only [Prod.mk.injEq] at heq
        obtain ⟨rfl, -, -⟩ := heq
        simp [wbIdleOrPending]
      | sockErr =>
        simp only [Prod.mk.injEq] at heq
        obtain ⟨-, rfl, -⟩ := heq
        omega
      | sent n =>
        simp only at heq
        split at heq
        · simp only [Prod.mk.injEq] at heq
          obtain ⟨rfl, -, -⟩ := heq
          simp [wbIdleOrPending]
        · exact finishSend_inv _ _ _ _ _ _ (by simpa using hm) (by simp) heq
  · next h => exact finishSend_inv _ _ _ _ _ _ hm (by omega) heq

theorem sendWritePhase_inv (sock : List SockRes) (st : SendSt)
    (st1 : SendSt) (r : Int) (sock1 : List SockRes)
    (heq : sendWritePhase sock st = (st1, r, sock1)) (hr : 0 ≤ r) :
    wbIdleOrPending st1 := by
  unfold sendWritePhase at heq
  split at heq
  · cases sock with
    | nil =>
      simp only [popSock] at heq
      simp only [Prod.mk.injEq] at heq
      obtain ⟨rfl, -, -⟩ := heq
      simp [wbIdleOrPending]
    | cons res rest =>
      simp only [popSock] at heq
      cases res with
      | wouldBlock =>
        simp only [Prod.mk.injEq] at heq
        obtain ⟨rfl, -, -⟩ := heq
        simp [wbIdleOrPending]
      | sockErr =>
        simp only [Prod.mk.injEq] at heq
        obtain ⟨-, rfl, -⟩ := heq
        omega
      | sent n =>
        simp only at heq
        split at heq
        · simp only [Prod.mk.injEq] at heq
          obtain ⟨rfl, -, -⟩ := heq
          simp [wbIdleOrPending]
        · exact sendMemPhase_inv _ _ _ _ _ _ rfl heq hr
  · exact sendMemPhase_inv _ _ _ _ _ _ (by omega) heq hr

theorem fillV2_err (chunks : List Int) : ∀ (wb : h2_wr_buf) (rest : List Int)
    (wb1 : h2_wr_buf) (e : Int), fillV2 chunks wb = (rest, wb1, some e) → e = -1 := by
  induction chunks with
  | nil =>
    intro wb rest wb1 e heq
    unfold fillV2 at heq
    split at heq <;> simp_all
  | cons c t ih =>
    intro wb rest wb1 e heq
    unfold fillV2 at heq
    split at heq
    · dsimp only at heq
      by_cases h1 : c < 0
      · rw [if_pos h1] at heq; simp_all
      · rw [if_neg h1] at heq
        by_cases h2 : c = 0
        · rw [if_pos h2] at heq; simp_all
        · rw [if_neg h2] at heq
          by_cases h3 : wb.merge_size + c.toNat ≤ H2_WR_BUF_SIZE
          · rw [if_pos h3] at heq; exact ih _ _ _ _ heq
          · rw [if_neg h3] at heq; simp_all
    · simp_all

/-- C1.  For every session and every sequence of outbound byte chunks, after
each single send step (one call of h2_sess_send_once_v2 or
h2_sess_send_once_v1_1 that returns a non-negative value), either both
write-buffer regions are empty (merge_size = 0 and mem_send_size = 0) or the
session's send_pending flag is set.  The codec chunk sequence, the stream
list, and the socket behavior are universally quantified oracles. -/
theorem C1_send_once_wb_invariant :
    (∀ (chunks : List Int) (sock : List SockRes) (st st1 : SendSt) (r : Int)
       (sock1 : List SockRes),
       h2_sess_send_once_v2 chunks sock st = (st1, r, sock1) → 0 ≤ r →
       wbIdleOrPending st1) ∧
    (∀ (isServer : Bool) (streams : List h1strm) (sending : Option Nat)
       (sock : List SockRes) (st : SendSt) (out : List h1strm × Option Nat × Nat)
       (st1 : SendSt) (r : Int) (sock1 : List SockRes),
       h2_sess_send_once_v1_1 isServer streams sending sock st = (out, st1, r, sock1) →
       0 ≤ r → wbIdleOrPending st1) := by
  constructor
  · intro chunks sock st st1 r sock1 heq hr
    unfold h2_sess_send_once_v2 at heq
    rcases hf : fillV2 chunks st.wb with ⟨rest, wb1, err⟩
    rw [hf] at heq
    cases err with
    | some e =>
      have he : e = -1 := fillV2_err chunks st.wb rest wb1 e hf
      simp only [Prod.mk.injEq] at heq
      obtain ⟨-, hre, -⟩ := heq
      omega
    | none => exact sendWritePhase_inv _ _ _ _ _ heq hr
  · intro isServer streams sending sock st out st1 r sock1 heq hr
    unfold h2_sess_send_once_v1_1 at heq
    rcases hf : fillV11 (H2_WR_BUF_SIZE + 1) isServer streams sending 0 st.wb with
      ⟨streams1, sending1, closeInc, wb1⟩
    rw [hf] at heq
    dsimp only at heq
    rcases hw : sendWritePhase sock { st with wb := wb1 } with ⟨st2, r2, sock2⟩
    rw [hw] at heq
    dsimp only at heq
    simp only [Prod.mk.injEq] at heq
    obtain ⟨-, rfl, rfl, -⟩ := heq
    exact sendWritePhase_inv _ _ _ _ _ hw hr

/-- Witness for C1 at a concrete input: one 5-byte codec chunk fully accepted
by the socket (v2), and one server stream with a 7-byte response body fully
accepted (v1.1). -/
theorem C1_send_once_wb_invariant_witness :
    wbIdleOrPending (h2_sess_send_once_v2 [5] [.sent 5] {}).1 ∧
    wbIdleOrPending
      (h2_sess_send_once_v1_1 true
        [{ response_set := true, data_used := 0, data_size := 7 }] none [.sent 7] {}).2.1 := by
  constructor
  · exact C1_send_once_wb_invariant.1 [5] [.sent 5] {} _ _ _ rfl (by decide)
  · exact C1_send_once_wb_invariant.2 true
      [{ response_set := true, data_used := 0, data_size := 7 }] none [.sent 7] {} _ _ _ _
      rfl (by decide)

/-- The session of the C2 counterexample: a live HTTP/1.1 client session with
one outstanding request (req_cnt 1, rsp_cnt 0). -/
def c2sess : h2_sess_t :=
  { is_terminated := 0, is_server := false, req_cnt := 1, rsp_cnt := 0, http_ver := 1 }

/-- C2 counterexample.  The claim says terminate(x) followed by terminate(y)
always makes the second call return 1 (already terminated) and leave the
session unchanged.  For a client session with an outstanding request,
terminate(1) honors wait_rsp and enters the draining state 2; the second call
terminate(0) then returns 0, not 1, and moves the session to state 1 (so the
state is also changed). -/
theorem C2_terminate_cex :
    (h2_sess_terminate (some c2sess) 1).2 = 0 ∧
    (h2_sess_terminate (h2_sess_terminate (some c2sess) 1).1 0).2 ≠ 1 ∧
    (h2_sess_terminate (h2_sess_terminate (some c2sess) 1).1 0).1 ≠
      (h2_sess_terminate (some c2sess) 1).1 := by
  decide

/-- C2 amended.  A second terminate call returns 1 (already terminated) with
the session unchanged whenever the first call left the session in state 1
(immediate termination) — that is, always except when the first call honored a
wait-response termination on a client session with outstanding requests, which
enters the draining state 2 instead. -/
theorem C2_terminate_idempotent_from_state1 (s : h2_sess_t) (x y : Int)
    (s1 : h2_sess_t) (r1 : Int)
    (hfirst : h2_sess_terminate (some s) x = (some s1, r1))
    (hstate : s1.is_terminated = 1) :
    h2_sess_terminate (some s1) y = (some s1, 1) := by
  unfold h2_sess_terminate
  dsimp only
  rw [if_pos hstate]

/-- The session state after the immediate terminate of the C2 witness. -/
def c2wit : h2_sess_t :=
  { is_terminated := 1, http_ver := 1, shut_wr := true, shut_rd := true,
    send_pending := true }

/-- Witness for the amended C2 at a concrete input: a fresh HTTP/1.1 client
session with no outstanding request; terminate(1) goes immediate (state 1),
and a following terminate(5) returns 1 without changing anything. -/
theorem C2_terminate_idempotent_from_state1_witness :
    h2_sess_terminate (some c2wit) 5 = (some c2wit, 1) :=
  C2_terminate_idempotent_from_state1 { http_ver := 1 } 1 5 c2wit 0 (by decide) (by decide)

/-- The success condition of claim C3, stated in the claim's own terms: the
line is at least 3 bytes long, its first three bytes are ASCII digits with the
first digit in 1..5, and either the line is exactly 3 bytes or the fourth byte
is a space or tab. -/
def statusLineGood (line : List Nat) : Prop :=
  3 ≤ line.length ∧
  isDigitC (line.getD 0 0) = true ∧ 49 ≤ line.getD 0 0 ∧ line.getD 0 0 ≤ 53 ∧
  isDigitC (line.getD 1 0) = true ∧ isDigitC (line.getD 2 0) = true ∧
  (line.length = 3 ∨ line.getD 3 0 = 32 ∨ line.getD 3 0 = 9)

instance (line : List Nat) : Decidable (statusLineGood line) := by
  unfold statusLineGood; infer_instance

/-- C3.  On a client-side HTTP/1.1 session the first line is parsed by the
status-line block (procStatusLine, called from headerLoop when is_server is
false and rmsg_header_line is 0): it succeeds exactly when statusLineGood
holds, in which case only the message status is set, to 100*d0 + 10*d1 + d2
for the three leading digit values, and the rest of the line is ignored;
otherwise it fails with the negative result -2. -/
theorem C3_status_line :
    ∀ (line : List Nat) (rmsg : h2_msg),
      (statusLineGood line →
        procStatusLine line rmsg =
          .ok { rmsg with status :=
                  100 * (line.getD 0 0 - 48) + 10 * (line.getD 1 0 - 48) +
                  (line.getD 2 0 - 48) }) ∧
      (¬ statusLineGood line →
        procStatusLine line rmsg = .error (-2) ∧ (-2 : Int) < 0) := by
  intro line rmsg
  have hcond : (3 ≤ line.length ∧
      49 ≤ line.getD 0 0 ∧ line.getD 0 0 ≤ 53 ∧
      48 ≤ line.getD 1 0 ∧ line.getD 1 0 ≤ 57 ∧
      48 ≤ line.getD 2 0 ∧ line.getD 2 0 ≤ 57 ∧
      (line.length ≤ 3 ∨ line.getD 3 0 = 32 ∨ line.getD 3 0 = 9)) ↔ statusLineGood line := by
    unfold statusLineGood isDigitC
    simp only [Bool.and_eq_true, decide_eq_true_eq]
    omega
  constructor
  · intro hgood
    unfold procStatusLine
    rw [if_pos (hcond.mpr hgood)]
    have hval : (line.getD 0 0 - 48) * 100 + (line.getD 1 0 - 48) * 10 +
        (line.getD 2 0 - 48) * 1 =
        100 * (line.getD 0 0 - 48) + 10 * (line.getD 1 0 - 48) + (line.getD 2 0 - 48) := by
      omega
    unfold h2_set_status
    rw [hval]
  · intro hbad
    unfold procStatusLine
    rw [if_neg (fun hc => hbad (hcond.mp hc))]
    exact ⟨rfl, by omega⟩

/-- Witness for C3 at concrete inputs: the line 200 OK parses to status 200,
and the line 999 fails. -/
theorem C3_status_line_witness :
    procStatusLine [50, 48, 48, 32, 79, 75] {} =
      .ok { status := 200 } ∧
    procStatusLine [57, 57, 57] {} = .error (-2) := by
  constructor
  · have h := (C3_status_line [50, 48, 48, 32, 79, 75] {}).1 (by decide)
    simpa using h
  · exact ((C3_status_line [57, 57, 57] {}).2 (by decide)).1

/-- A suffix of given length is exactly what List.drop of the complement
leaves. -/
theorem suffix_iff_drop_eq (l s : List Nat) (hle : s.length ≤ l.length) :
    s <:+ l ↔ l.drop (l.length - s.length) = s := by
  constructor
  · rintro ⟨t, rfl⟩
    have hlen : (t ++ s).length - s.length = t.length := by
      simp [List.length_append]
    rw [hlen, List.drop_left]
  · intro h
    have hsplit := List.take_append_drop (l.length - s.length) l
    rw [h] at hsplit
    exact ⟨l.take (l.length - s.length), hsplit⟩

deriving instance DecidableEq for Except

/-- The request line of the C4 counterexample: GET /xHTTP/1.1 — the version
suffix is present but NOT preceded by whitespace (the byte before it is x). -/
def c4line : List Nat := [71, 69, 84, 32, 47, 120, 72, 84, 84, 80, 47, 49, 46, 49]

/-- C4 counterexample.  The claim requires the line to end in HTTP/1.1
preceded by whitespace.  The code only checks the 12-byte minimum and the
8-byte suffix: the line GET /xHTTP/1.1, whose version suffix is preceded by
the byte x (not a space or tab), parses successfully with method GET and path
/x. -/
theorem C4_request_line_cex :
    procRequestLine false c4line {} =
      .ok { method := [71, 69, 84], scheme := httpBytes, authority := httpBytes,
            path := [47, 120] } ∧
    isSpTab (c4line.getD (c4line.length - 9) 0) = false := by
  decide

/-- The success condition the code actually enforces on a request line: at
least 12 bytes, ending in the 8 bytes HTTP/1.1 (no whitespace requirement
before the version). -/
def requestLineGood (line : List Nat) : Prop :=
  12 ≤ line.length ∧ HTTP11bytes <:+ line

instance (line : List Nat) : Decidable (requestLineGood line) := by
  unfold requestLineGood; infer_instance

/-- C4 amended.  Parsing the request-line requires only that the line be at
least 12 bytes long and end in the 8 bytes HTTP/1.1 — whitespace before the
version is not required; the line fails to parse with the negative result -1
exactly when that condition fails.  On success the version is stripped, then
trailing spaces/tabs are stripped while at least 3 bytes remain, the method is
the maximal run of non-whitespace bytes from the start of the stripped line,
and the path is the remainder after skipping the whitespace following the
method. -/
theorem C4_request_line :
    ∀ (ssl : Bool) (line : List Nat) (rmsg : h2_msg),
      (requestLineGood line →
        procRequestLine ssl line rmsg =
          .ok { rmsg with
                  method := (trimTail3 (line.take (line.length - 8))).takeWhile
                    (fun c => !(isSpTab c)),
                  scheme := if ssl then httpsBytes else httpBytes,
                  authority := httpBytes,
                  path := ((trimTail3 (line.take (line.length - 8))).dropWhile
                    (fun c => !(isSpTab c))).dropWhile isSpTab }) ∧
      (¬ requestLineGood line →
        procRequestLine ssl line rmsg = .error (-1) ∧ (-1 : Int) < 0) := by
  intro ssl line rmsg
  have hlen8 : HTTP11bytes.length = 8 := by decide
  have hcond : (12 ≤ line.length ∧ line.drop (line.length - 8) = HTTP11bytes) ↔
      requestLineGood line := by
    unfold requestLineGood
    constructor
    · rintro ⟨h12, hdrop⟩
      refine ⟨h12, ?_⟩
      rw [suffix_iff_drop_eq line HTTP11bytes (by omega), hlen8]
      exact hdrop
    · rintro ⟨h12, hsuf⟩
      refine ⟨h12, ?_⟩
      rw [suffix_iff_drop_eq line HTTP11bytes (by omega), hlen8] at hsuf
      exact hsuf
  constructor
  · intro hgood
    unfold procRequestLine
    rw [if_pos (hcond.mpr hgood)]
    rfl
  · intro hbad
    unfold procRequestLine
    rw [if_neg (fun hc => hbad (hcond.mp hc))]
    exact ⟨rfl, by omega⟩

/-- Witness for the amended C4 at concrete inputs: GET / HTTP/1.1 parses with
method GET and path /, and the versionless line GET / fails with -1. -/
theorem C4_request_line_witness :
    procRequestLine false [71, 69, 84, 32, 47, 32, 72, 84, 84, 80, 47, 49, 46, 49] {} =
      .ok { method := [71, 69, 84], scheme := httpBytes, authority := httpBytes,
            path := [47] } ∧
    procRequestLine false [71, 69, 84, 32, 47] {} = .error (-1) := by
  constructor
  · have h := (C4_request_line false [71, 69, 84, 32, 47, 32, 72, 84, 84, 80, 47, 49, 46, 49] {}).1
      (by decide)
    rw [h]
    decide
  · exact ((C4_request_line false [71, 69, 84, 32, 47] {}).2 (by decide)).1

/-- The decimal value of a (trimmed) header value as the claim reads it: its
leading decimal digits, 0 when there are none. -/
def specDecimalValue (v : List Nat) : Int := atoiDigits v 0

/-- The receive buffer of the C5 counterexample:
200 CRLF content-length: CRLF 5:x CRLF CRLF — a status line, a Content-Length
header with an EMPTY value, one more header line whose name is the digit 5,
and the end of headers. -/
def cex5buf : List Nat :=
  [50, 48, 48, 13, 10] ++ contentLengthLower ++ [58] ++ [13, 10] ++
  [53, 58, 120, 13, 10] ++ [13, 10]

/-- The client session of the C5 counterexample, with the buffer above fully
received and one stream awaiting its response. -/
def cex5sess : h2_sess_rv :=
  { is_server := false, strm_list := [{ stream_id := 1 }], rdata := some cex5buf,
    rdata_alloced := RDATA_ALLOC_DEF, rdata_size := 27, rdata_used := 0 }

/-- C5 counterexample.  The claim says a content-length header sets the
expected body length to the decimal value of its (trimmed) value.  Here the
Content-Length value is empty, whose decimal value is 0 under any reading —
but C atoi, applied at the value pointer with no bound at the line end, skips
the CR LF line terminator as whitespace and reads the digit 5 from the NEXT
header line, so the session's expected body length becomes 5. -/
theorem C5_content_length_cex :
    (h2_sess_recv_hdl_once_v1_1 cex5sess).1.rmsg_content_length = 5 ∧
    dropTrailWS ((((contentLengthLower ++ [58]).drop 15)).dropWhile isSpTab) = [] ∧
    specDecimalValue [] = 0 ∧ (5 : Int) ≠ 0 := by
  decide

/-- C5 amended.  A header line with no colon is the parse error -3.
Otherwise the line splits at the first colon and the value is trimmed of
leading and trailing spaces/tabs; a name equal to host case-insensitively on
a server session sets the message authority instead of appending; a name
equal to content-length case-insensitively sets the expected body length to
the result of C atoi applied at the start of the lead-trimmed value — the
digits are read after skipping any C whitespace, which for an empty value
continues past the line terminator into the following buffer bytes; every
other pair is appended to the header list in order. -/
theorem C5_header_line :
    ∀ (is_server : Bool) (line rest : List Nat) (rmsg : h2_msg) (clen : Int),
      (line.findIdx? (· == 58) = none →
        procHeaderLine is_server line rest rmsg clen = .error (-3) ∧ (-3 : Int) < 0) ∧
      (∀ j, line.findIdx? (· == 58) = some j →
        ((is_server = true ∧ (line.take j).map toLowerB = hostLower) →
          procHeaderLine is_server line rest rmsg clen =
            .ok ({ rmsg with
                     authority := dropTrailWS ((line.drop (j + 1)).dropWhile isSpTab) },
                 clen)) ∧
        ((line.take j).map toLowerB = contentLengthLower →
          procHeaderLine is_server line rest rmsg clen =
            .ok (rmsg, atoiC ((line.drop (j + 1)).dropWhile isSpTab ++ rest))) ∧
        (¬ (is_server = true ∧ (line.take j).map toLowerB = hostLower) →
         (line.take j).map toLowerB ≠ contentLengthLower →
          procHeaderLine is_server line rest rmsg clen =
            .ok ({ rmsg with
                     headers := rmsg.headers ++
                       [(line.take j, dropTrailWS ((line.drop (j + 1)).dropWhile isSpTab))] },
                 clen))) := by
  intro is_server line rest rmsg clen
  constructor
  · intro hnone
    unfold procHeaderLine
    rw [hnone]
    exact ⟨rfl, by omega⟩
  · intro j hj
    unfold procHeaderLine
    rw [hj]
    dsimp only
    refine ⟨?_, ?_, ?_⟩
    · rintro ⟨hsrv, hmap⟩
      have hlen : (line.take j).length = 4 := by
        have := congrArg List.length hmap
        simpa using this
      rw [if_pos ⟨hlen, hmap, hsrv⟩]
      rfl
    · intro hmap
      have hlen : (line.take j).length = 14 := by
        have := congrArg List.length hmap
        simpa using this
      rw [if_neg (fun hc => by have h4 := hc.1; omega), if_pos ⟨hlen, hmap⟩]
    · intro hnot1 hnot2
      rw [if_neg (fun hc => hnot1 ⟨hc.2.2, hc.2.1⟩), if_neg (fun hc => hnot2 hc.2)]
      rfl

/-- Witness for the amended C5 at a concrete input: the header line
content-length: 42 followed by a CRLF sets the expected body length to 42. -/
theorem C5_header_line_witness :
    procHeaderLine false (contentLengthLower ++ [58, 32, 52, 50]) [13, 10] {} 0 =
      .ok ({}, 42) := by
  have h := ((C5_header_line false (contentLengthLower ++ [58, 32, 52, 50]) [13, 10] {} 0).2
    14 (by decide)).2.1 (by decide)
  rw [h]
  decide

/-- C6.  For a receive step of an HTTP/1.1 session — append the chunk, run
the parse loop to the intermediate state s2, succeed — the read buffer is
freed and reset to the null/empty state (data null; alloced, size, used all
zero) exactly on the path where all buffered bytes were consumed
(rdata_used = rdata_size) and the allocated capacity exceeds the 16 KiB
default; when the capacity is at most the default the buffer (and the whole
session state) is retained unchanged. -/
theorem C6_rdata_reclaim :
    ∀ (s : h2_sess_rv) (data : List Nat) (s2 : h2_sess_rv) (r : Int),
      recvLoop ((rdataAppend s data).rdata_size + 2) (rdataAppend s data) = (s2, r) →
      0 ≤ r →
      ((s2.rdata_used = s2.rdata_size ∧ RDATA_ALLOC_DEF < s2.rdata_alloced →
         (h2_sess_recv_v1_1 s data).1 =
           { s2 with rdata_offset := s2.rdata_offset + s2.rdata_used,
                     rdata := none, rdata_alloced := 0, rdata_size := 0,
                     rdata_used := 0 } ∧
         (h2_sess_recv_v1_1 s data).2 = (data.length : Int)) ∧
       (s2.rdata_alloced ≤ RDATA_ALLOC_DEF → (h2_sess_recv_v1_1 s data).1 = s2)) := by
  intro s data s2 r heq hr
  unfold h2_sess_recv_v1_1
  dsimp only
  rw [heq]
  dsimp only
  rw [if_neg (by omega : ¬ r < 0)]
  constructor
  · rintro ⟨hused, halloc⟩
    rw [if_pos ⟨hused, halloc⟩]
    exact ⟨rfl, rfl⟩
  · intro hle
    rw [if_neg (fun hc => by have := hc.2; omega)]

/-- The session of the C6 witness: a fresh server-side HTTP/1.1 session. -/
def c6wit : h2_sess_rv := { is_server := true }

/-- Witness for C6 at a concrete input: one byte received into a fresh
session; the default-capacity buffer (16 KiB, not exceeding the default) is
retained. -/
theorem C6_rdata_reclaim_witness :
    (h2_sess_recv_v1_1 c6wit [120]).1 =
      (recvLoop ((rdataAppend c6wit [120]).rdata_size + 2) (rdataAppend c6wit [120])).1 :=
  (C6_rdata_reclaim c6wit [120] _ _ rfl (by decide)).2 (by decide)

theorem peerProbe_none_idx (nsi n : Nat) :
    ∀ (fuel : Nat) (p : h2_peer_st) (i : Nat) (p1 : h2_peer_st) (j : Nat),
      fuel + i = n → peerProbe nsi n fuel p i = (p1, none, j) → j = n := by
  intro fuel
  induction fuel with
  | zero =>
    intro p i p1 j hfi heq
    unfold peerProbe at heq
    simp only [Prod.mk.injEq] at heq
    obtain ⟨-, -, rfl⟩ := heq
    omega
  | succ f ih =>
    intro p i p1 j hfi heq
    unfold peerProbe at heq
    split at heq
    · dsimp only at heq
      split at heq
      · split at heq
        · split at heq
          · exact ih _ _ _ _ (by omega) heq
          · simp at heq
        · exact ih _ _ _ _ (by omega) heq
      · exact ih _ _ _ _ (by omega) heq
    · next hni => omega

theorem peerProbe_some_si (nsi n : Nat) :
    ∀ (fuel : Nat) (p : h2_peer_st) (i : Nat) (p1 : h2_peer_st) (si j : Nat),
      peerProbe nsi n fuel p i = (p1, some si, j) → si = (nsi + j) % n ∧ j < n := by
  intro fuel
  induction fuel with
  | zero =>
    intro p i p1 si j heq
    unfold peerProbe at heq
    simp at heq
  | succ f ih =>
    intro p i p1 si j heq
    unfold peerProbe at heq
    split at heq
    · next hlt =>
      dsimp only at heq
      split at heq
      · split at heq
        · split at heq
          · exact ih _ _ _ _ _ heq
          · simp only [Prod.mk.injEq] at heq
            obtain ⟨-, hsi, rfl⟩ := heq
            exact ⟨(Option.some.inj hsi).symm, hlt⟩
        · exact ih _ _ _ _ _ heq
      · exact ih _ _ _ _ _ heq
    · simp at heq

theorem peerProbe_keep (nsi n : Nat) :
    ∀ (fuel : Nat) (p : h2_peer_st) (i : Nat), p.req_thr_for_reconn ≤ 0 →
      (peerProbe nsi n fuel p i).1 = p := by
  intro fuel
  induction fuel with
  | zero => intro p i hthr; rfl
  | succ f ih =>
    intro p i hthr
    unfold peerProbe
    split
    · dsimp only
      split
      · split
        · split
          · next hrot => exact absurd hrot.1 (by omega)
          · rfl
        · exact ih _ _ hthr
      · exact ih _ _ hthr
    · rfl

/-- The peer of the C7 counterexample: two slots, the first inactive, the
second active, cursor at 0, no rotation threshold. -/
def c7peer : h2_peer_st :=
  { sess_num := 2, req_thr_for_reconn := 0, sess := [some {}, some {}],
    act_sess := [false, true], act_sess_num := 1, next_sess_idx := 0,
    is_terminated := 0 }

/-- C7 counterexample.  The claim says every send_request call advances
next_sess_idx by exactly one position modulo the slot count.  Here the probe
skips the inactive slot 0 and selects slot 1, and the cursor is advanced by
the probe count plus one — two positions, i.e. back to 0 instead of 1. -/
theorem C7_next_sess_idx_cex :
    (h2_peer_send_request c7peer 0).1.next_sess_idx = 0 ∧
    (c7peer.next_sess_idx + 1) % c7peer.sess_num = 1 := by
  decide

/-- C7 amended.  A call refused because the peer is terminating leaves the
cursor (and the whole peer) unchanged and returns -1.  Otherwise the new
cursor is one slot past the selected session's slot, modulo the slot count —
(start + 1) mod N when no session was selected at all — so the cursor advances
by exactly one only when the probe selects the first probed slot or selects
nothing, and by one plus the number of skipped slots in general. -/
theorem C7_next_sess_idx :
    ∀ (p : h2_peer_st) (r : Int),
      (p.is_terminated ≠ 0 → h2_peer_send_request p r = (p, -1)) ∧
      (p.is_terminated = 0 →
        ∀ (p1 : h2_peer_st) (found : Option Nat) (j : Nat),
          peerProbe p.next_sess_idx p.sess_num p.sess_num p 0 = (p1, found, j) →
          ((found = none →
             (h2_peer_send_request p r).1.next_sess_idx =
               (p.next_sess_idx + 1) % p.sess_num) ∧
           (∀ si, found = some si →
             (h2_peer_send_request p r).1.next_sess_idx =
               (si + 1) % p.sess_num))) := by
  intro p r
  constructor
  · intro hterm
    unfold h2_peer_send_request
    dsimp only
    rw [if_pos hterm]
  · intro hterm p1 found j heq
    constructor
    · intro hnone
      subst hnone
      have hj : j = p.sess_num :=
        peerProbe_none_idx p.next_sess_idx p.sess_num p.sess_num p 0 p1 j
          (by omega) heq
      subst hj
      unfold h2_peer_send_request
      dsimp only
      rw [if_neg (fun hc => hc hterm), heq]
      dsimp only
      rw [Nat.add_right_comm p.next_sess_idx p.sess_num 1]
      exact Nat.add_mod_right _ _
    · intro si hsome
      subst hsome
      obtain ⟨hsi, hjn⟩ :=
        peerProbe_some_si p.next_sess_idx p.sess_num p.sess_num p 0 p1 si j heq
      unfold h2_peer_send_request
      dsimp only
      rw [if_neg (fun hc => hc hterm), heq]
      dsimp only
      split
      · next sess hget =>
        dsimp only
        rw [hsi]
        exact (Nat.mod_add_mod _ _ _).symm
      · dsimp only
        rw [hsi]
        exact (Nat.mod_add_mod _ _ _).symm

/-- The peer of the C7 and C8 witnesses: one active slot, no threshold. -/
def c7wit : h2_peer_st :=
  { sess_num := 1, req_thr_for_reconn := 0, sess := [some {}],
    act_sess := [true], act_sess_num := 1, next_sess_idx := 0, is_terminated := 0 }

/-- Witness for the amended C7 at a concrete input: the probe selects slot 0,
so the cursor becomes (0 + 1) mod 1. -/
theorem C7_next_sess_idx_witness :
    (h2_peer_send_request c7wit 3).1.next_sess_idx = (0 + 1) % c7wit.sess_num :=
  ((C7_next_sess_idx c7wit 3).2 rfl
    (peerProbe c7wit.next_sess_idx c7wit.sess_num c7wit.sess_num c7wit 0).1
    (peerProbe c7wit.next_sess_idx c7wit.sess_num c7wit.sess_num c7wit 0).2.1
    (peerProbe c7wit.next_sess_idx c7wit.sess_num c7wit.sess_num c7wit 0).2.2
    rfl).2 0 (by decide)

/-- C8.  Part one: a candidate active session probed by the round-robin loop
(slot (nsi+i) mod n holds a session and its active flag is set) is rotated out
— active flag cleared, active count decremented, session terminated with
wait_rsp true (rotateSlot) — with the search continuing at the next offset,
exactly when req_thr > 0, the session's req_cnt is at least req_thr, and the
active count is at least the slot count; otherwise the probe selects that
candidate.  Part two: end to end, when the first probed slot is such a
candidate and the rotation condition fails, h2_peer_send_request sends the
request on it (its req_cnt is incremented, the call returns the send result,
active flags untouched) and advances the cursor one past it. -/
theorem C8_rotation :
    (∀ (nsi n fuel : Nat) (p : h2_peer_st) (i : Nat) (sess : h2_sess_t),
      i < n →
      (p.sess.get? ((nsi + i) % n)).getD none = some sess →
      p.act_sess.getD ((nsi + i) % n) false = true →
      ((rotCond p sess →
         peerProbe nsi n (fuel + 1) p i =
           peerProbe nsi n fuel (rotateSlot p ((nsi + i) % n) sess) (i + 1)) ∧
       (¬ rotCond p sess →
         peerProbe nsi n (fuel + 1) p i = (p, some ((nsi + i) % n), i)))) ∧
    (∀ (p : h2_peer_st) (sess : h2_sess_t) (r : Int) (m : Nat),
      p.sess_num = m + 1 →
      p.is_terminated = 0 →
      (p.sess.get? (p.next_sess_idx % p.sess_num)).getD none = some sess →
      p.act_sess.getD (p.next_sess_idx % p.sess_num) false = true →
      ¬ rotCond p sess →
      h2_peer_send_request p r =
        ({ p with next_sess_idx := (p.next_sess_idx + 1) % p.sess_num,
                  sess := p.sess.set (p.next_sess_idx % p.sess_num)
                    (some { sess with req_cnt := sess.req_cnt + 1 }) }, r)) := by
  constructor
  · intro nsi n fuel p i sess hlt hget hact
    constructor
    · intro hrot
      conv_lhs => unfold peerProbe
      dsimp only
      rw [if_pos hlt, hget]
      dsimp only
      rw [if_pos hact, if_pos hrot]
    · intro hnrot
      conv_lhs => unfold peerProbe
      dsimp only
      rw [if_pos hlt, hget]
      dsimp only
      rw [if_pos hact, if_neg hnrot]
  · intro p sess r m hm hterm hget hact hnrot
    unfold h2_peer_send_request
    dsimp only
    rw [if_neg (fun hc => hc hterm)]
    have hprobe : peerProbe p.next_sess_idx p.sess_num p.sess_num p 0 =
        (p, some (p.next_sess_idx % p.sess_num), 0) := by
      rw [hm]
      conv_lhs => unfold peerProbe
      dsimp only
      rw [if_pos (Nat.succ_pos m)]
      have h0 : p.next_sess_idx + 0 = p.next_sess_idx := rfl
      rw [h0, ← hm, hget]
      dsimp only
      rw [if_pos hact, if_neg hnrot, hm]
    rw [hprobe]
    dsimp only
    rw [hget]
    dsimp only
    unfold h2_send_request
    dsimp only

/-- Witness for C8 at concrete inputs: a one-slot peer with threshold 1 whose
session has handled one request rotates it out (part one); the c7wit peer with
no threshold sends on its first slot (part two). -/
theorem C8_rotation_witness :
    (peerProbe 0 1 1
        { sess_num := 1, req_thr_for_reconn := 1, sess := [some { req_cnt := 1 }],
          act_sess := [true], act_sess_num := 1, next_sess_idx := 0,
          is_terminated := 0 } 0 =
      peerProbe 0 1 0
        (rotateSlot
          { sess_num := 1, req_thr_for_reconn := 1, sess := [some { req_cnt := 1 }],
            act_sess := [true], act_sess_num := 1, next_sess_idx := 0,
            is_terminated := 0 } ((0 + 0) % 1) { req_cnt := 1 }) 1) ∧
    h2_peer_send_request c7wit 3 =
      ({ c7wit with next_sess_idx := (c7wit.next_sess_idx + 1) % c7wit.sess_num,
                    sess := c7wit.sess.set (c7wit.next_sess_idx % c7wit.sess_num)
                      (some { req_cnt := 1 }) }, 3) := by
  constructor
  · exact (C8_rotation.1 0 1 0
      { sess_num := 1, req_thr_for_reconn := 1, sess := [some { req_cnt := 1 }],
        act_sess := [true], act_sess_num := 1, next_sess_idx := 0,
        is_terminated := 0 } 0 { req_cnt := 1 }
      (by decide) (by decide) (by decide)).1 (by decide)
  · exact C8_rotation.2 c7wit {} 3 0 rfl rfl (by decide) (by decide) (by decide)

theorem mem_settingsEntry (a : Nat) (b v : Int) (id : Nat) :
    (a, b) ∈ settingsEntry v id ↔ 0 ≤ v ∧ a = id ∧ b = v := by
  unfold settingsEntry
  split
  · next h => simp [h, Prod.ext_iff]
  · next h => simp [h]

/-- C9.  For every peer settings value: each of the seven fields contributes
its (identifier, value) entry to the SETTINGS vector submitted to the H2 codec
if and only if the value is non-negative (so a field set to -1, as by
h2_settings_init, is omitted); on an HTTP/2 session that whole vector is what
is handed to the codec, and on a session that is not HTTP/2 the submission
does nothing and reports success. -/
theorem C9_settings :
    ∀ (s : h2_settings),
      ((∀ v, (1, v) ∈ h2_sess_send_settings_iv (some s) ↔
          0 ≤ s.header_table_size ∧ v = s.header_table_size) ∧
       (∀ v, (2, v) ∈ h2_sess_send_settings_iv (some s) ↔
          0 ≤ s.enable_push ∧ v = s.enable_push) ∧
       (∀ v, (3, v) ∈ h2_sess_send_settings_iv (some s) ↔
          0 ≤ s.max_concurrent_streams ∧ v = s.max_concurrent_streams) ∧
       (∀ v, (4, v) ∈ h2_sess_send_settings_iv (some s) ↔
          0 ≤ s.initial_window_size ∧ v = s.initial_window_size) ∧
       (∀ v, (5, v) ∈ h2_sess_send_settings_iv (some s) ↔
          0 ≤ s.max_frame_size ∧ v = s.max_frame_size) ∧
       (∀ v, (6, v) ∈ h2_sess_send_settings_iv (some s) ↔
          0 ≤ s.max_header_list_size ∧ v = s.max_header_list_size) ∧
       (∀ v, (8, v) ∈ h2_sess_send_settings_iv (some s) ↔
          0 ≤ s.enable_connect_protocol ∧ v = s.enable_connect_protocol)) ∧
      (∀ (submitOk : Bool) (sendRet : Int),
        (h2_sess_send_settings H2_HTTP_V2 (some s) submitOk sendRet).1 =
          some (h2_sess_send_settings_iv (some s))) ∧
      (∀ (hv : Nat) (settings : Option h2_settings) (submitOk : Bool) (sendRet : Int),
        hv ≠ H2_HTTP_V2 →
        h2_sess_send_settings hv settings submitOk sendRet = (none, 0)) := by
  intro s
  refine ⟨⟨?_, ?_, ?_, ?_, ?_, ?_, ?_⟩, ?_, ?_⟩
  · intro v
    simp [h2_sess_send_settings_iv, mem_settingsEntry]
  · intro v
    simp [h2_sess_send_settings_iv, mem_settingsEntry]
  · intro v
    simp [h2_sess_send_settings_iv, mem_settingsEntry]
  · intro v
    simp [h2_sess_send_settings_iv, mem_settingsEntry]
  · intro v
    simp [h2_sess_send_settings_iv, mem_settingsEntry]
  · intro v
    simp [h2_sess_send_settings_iv, mem_settingsEntry]
  · intro v
    simp [h2_sess_send_settings_iv, mem_settingsEntry]
  · intro submitOk sendRet
    unfold h2_sess_send_settings
    rw [if_neg (by simp)]
    split <;> rfl
  · intro hv settings submitOk sendRet hne
    unfold h2_sess_send_settings
    rw [if_pos hne]

/-- Witness for C9 at a concrete input: on an HTTP/1.1 session (version tag 1)
the settings submission does nothing and reports success. -/
theorem C9_settings_witness :
    h2_sess_send_settings 1 (some h2_settings_init) true 0 = (none, 0) :=
  (C9_settings h2_settings_init).2.2 1 (some h2_settings_init) true 0 (by decide)

theorem list_map_set_eq {α β : Type} (f : α → β) :
    ∀ (l : List α) (i : Nat) (a x : α), l.get? i = some x → f a = f x →
      (l.set i a).map f = l.map f := by
  intro l
  induction l with
  | nil => intro i a x h hf; simp at h
  | cons hd tl ih =>
    intro i a x h hf
    cases i with
    | zero =>
      simp only [List.get?] at h
      obtain rfl : hd = x := by injection h
      simp only [List.set_cons_zero, List.map_cons]
      rw [hf]
    | succ k =>
      simp only [List.get?] at h
      simp only [List.set_cons_succ, List.map_cons]
      rw [ih k a x h hf]

/-- C10.  Constructing a peer with sess_num 1 and a non-zero rotation
threshold silently forces the stored threshold to 0; and a peer whose stored
threshold is 0 never performs threshold-triggered rotation on send_request:
the active flags, the active count, and every slot session's termination state
are unchanged by the call (only the selected session's request counter
moves). -/
theorem C10_single_sess_no_rotation :
    (∀ (thr : Int) (connectOk : List Bool) (p : h2_peer_st),
      thr ≠ 0 → h2_peer_connect 1 thr connectOk = some p →
      p.req_thr_for_reconn = 0) ∧
    (∀ (q : h2_peer_st) (r : Int), q.req_thr_for_reconn = 0 →
      ((h2_peer_send_request q r).1.act_sess = q.act_sess ∧
       (h2_peer_send_request q r).1.act_sess_num = q.act_sess_num ∧
       (h2_peer_send_request q r).1.sess.map (Option.map h2_sess_t.is_terminated) =
         q.sess.map (Option.map h2_sess_t.is_terminated))) := by
  constructor
  · intro thr connectOk p hthr heq
    unfold h2_peer_connect at heq
    dsimp only at heq
    split at heq
    · simp at heq
    · simp only [Option.some.injEq] at heq
      subst heq
      dsimp only
      rw [if_pos ⟨hthr, trivial⟩]
  · intro q r hthr
    unfold h2_peer_send_request
    dsimp only
    split
    · exact ⟨rfl, rfl, rfl⟩
    · rcases hp : peerProbe q.next_sess_idx q.sess_num q.sess_num q 0 with ⟨p1, found, j⟩
      have hkeep : p1 = q := by
        have h := peerProbe_keep q.next_sess_idx q.sess_num q.sess_num q 0 (by omega)
        rw [hp] at h
        exact h
      subst hkeep
      dsimp only
      cases found with
      | none => exact ⟨rfl, rfl, rfl⟩
      | some si =>
        dsimp only
        split
        · next sess hget =>
          unfold h2_send_request
          dsimp only
          refine ⟨rfl, rfl, ?_⟩
          have hq : p1.sess.get? si = some (some sess) := by
            rcases hgo : p1.sess.get? si with _ | v
            · rw [hgo] at hget
              simp at hget
            · rw [hgo] at hget
              simp only [Option.getD_some] at hget
              rw [hget]
          exact list_map_set_eq _ _ _ _ _ hq rfl
        · exact ⟨rfl, rfl, rfl⟩

/-- The peer produced by the C10 witness construction. -/
def c10p : h2_peer_st :=
  { sess_num := 1, req_thr_for_reconn := 0, sess := [some {}],
    act_sess := [true], act_sess_num := 1, next_sess_idx := 0, is_terminated := 0 }

/-- Witness for C10 at a concrete input: connecting one session with requested
threshold 7 stores threshold 0, and the resulting peer's send_request leaves
the active flags unchanged. -/
theorem C10_single_sess_no_rotation_witness :
    c10p.req_thr_for_reconn = 0 ∧
    (h2_peer_send_request c10p 5).1.act_sess = c10p.act_sess :=
  ⟨C10_single_sess_no_rotation.1 7 [true] c10p (by decide) (by decide),
   (C10_single_sess_no_rotation.2 c10p 5 rfl).1⟩
